import Mathlib

/-!
Shallow embedding of the image-review backend (FastAPI + SQLAlchemy + SQLite).

The database is modelled as a value of type `DB`: one list per table, in
insertion order.  Each HTTP handler from `app/main.py` becomes a pure Lean
function from its request data (and the ambient configuration and clock) and
the current `DB` to a result together with the `DB` after the request; an
`Err` result corresponds to an `HTTPException` (or an internal server error)
and carries the same status code and detail string as the source.  External
effects are passed in as data: the Google verification outcome, the manifest
fetch outcome, and the wall clock (seconds as `Nat`).  SQLAlchemy's
`scalar_one_or_none` is modelled faithfully, including the
`MultipleResultsFound` failure mode on result sets with more than one row.
-/

/-- HTTP-level outcomes raised by the handlers (`HTTPException` in the source,
plus `internal` for an unhandled exception such as `MultipleResultsFound`). -/
inductive Err where
  | badRequest (detail : String)
  | unauthorized (detail : String)
  | notFound (detail : String)
  | internal
deriving DecidableEq, Repr

/-- The HTTP status code each error is served with. -/
def Err.statusCode : Err → Nat
  | .badRequest _ => 400
  | .unauthorized _ => 401
  | .notFound _ => 404
  | .internal => 500

/-- SQLAlchemy `Result.scalar_one_or_none`: `none` on an empty result set, the
row when there is exactly one, and `MultipleResultsFound` (an unhandled
exception, hence a 500) otherwise. -/
def scalarOneOrNone {α : Type} : List α → Except Err (Option α)
  | [] => .ok none
  | [a] => .ok (some a)
  | _ :: _ :: _ => .error .internal

/-! ## app/auth.py -/

/-- A decoded backend session token: the claim set `{sub, exp}` written by
`create_jwt` together with the key the token was signed with (modelling the
HMAC signature). -/
structure Jwt where
  sub : String
  exp : Nat
  signedWith : String
deriving DecidableEq, Repr

/-- The payload `jwt.decode` hands back to the handlers. -/
structure Payload where
  sub : String
  exp : Nat
deriving DecidableEq, Repr

/-- `int(os.getenv("JWT_EXPIRE_MINUTES", "240"))` default. -/
def JWT_EXPIRE_MINUTES_default : Nat := 240

/-- `create_jwt`: `exp = utcnow() + timedelta(minutes=JWT_EXPIRE_MINUTES)`,
payload `{"sub": user_sub, "exp": exp}`, signed with the configured secret.
Time is in seconds, so the lifetime is `expireMinutes * 60`. -/
def create_jwt (user_sub : String) (now : Nat) (secretKey : String)
    (expireMinutes : Nat) : Jwt :=
  { sub := user_sub, exp := now + expireMinutes * 60, signedWith := secretKey }

/-- `verify_jwt` on an already-parsed token: `jose.jwt.decode` verifies the
signature first (failure → `JWTError` → 401 "Invalid token"), then the `exp`
claim (`exp < now` → `ExpiredSignatureError` → 401 "Token expired"). -/
def verify_jwt (t : Jwt) (secretKey : String) (now : Nat) : Except Err Payload :=
  if t.signedWith ≠ secretKey then .error (.unauthorized "Invalid token")
  else if t.exp < now then .error (.unauthorized "Token expired")
  else .ok { sub := t.sub, exp := t.exp }

/-- Helper for Python `str.partition(" ")` restricted to the character list:
split at the first space, `none` when there is no space. -/
def partitionCharsAux : List Char → Option (List Char × List Char)
  | [] => none
  | c :: cs =>
    if c = ' ' then some ([], cs)
    else
      match partitionCharsAux cs with
      | none => none
      | some (a, b) => some (c :: a, b)

/-- Python `authorization.partition(" ")` projected to `(scheme, token)`:
the text before the first space and the text after it, with the token empty
when the string has no space (Python returns `(s, "", "")` then). -/
def partitionSpace (s : String) : String × String :=
  match partitionCharsAux s.data with
  | none => (s, "")
  | some (a, b) => (String.mk a, String.mk b)

/-- `get_current_user_payload`: split the `Authorization` header at the first
space; reject with 401 unless the scheme is `bearer` (case-insensitively) and
the token part is nonempty; only then decode and verify the token.  The
parsing of the compact token string back into a claim set (done inside
`jose.jwt.decode`) is abstracted as `decodeToken`; a parse failure is a
`JWTError`, hence 401 "Invalid token". -/
def get_current_user_payload (decodeToken : String → Option Jwt)
    (secretKey : String) (now : Nat) (authorization : String) :
    Except Err Payload :=
  if (partitionSpace authorization).1.toLower ≠ "bearer" ∨
      (partitionSpace authorization).2 = "" then
    .error (.unauthorized "Invalid auth header format")
  else
    match decodeToken (partitionSpace authorization).2 with
    | none => .error (.unauthorized "Invalid token")
    | some t => verify_jwt t secretKey now

/-! ## app/models.py and app/db.py -/

/-- `models.User` (timestamps in seconds). -/
structure User where
  id : Nat
  sub : String
  email : Option String
  given_name : Option String
  family_name : Option String
  picture : Option String
  created_at : Nat
  updated_at : Nat
deriving DecidableEq, Repr

/-- `models.TestImage`; `confidence` (a SQL `Float`) is modelled as a
rational. -/
structure TestImage where
  id : String
  url : String
  suggested_label : Option String
  confidence : Option Rat
  created_at : Nat
deriving DecidableEq, Repr

/-- `models.LabelSubmission`. -/
structure LabelSubmission where
  id : Nat
  image_id : String
  user_id : Nat
  label : String
  created_at : Nat
  updated_at : Nat
deriving DecidableEq, Repr

/-- `db.DbInitTest` (also redeclared in `models.py`). -/
structure DbInitTest where
  id : Nat
  testing_id : String
deriving DecidableEq, Repr

/-- The SQLite database: one list per table, rows in insertion order. -/
structure DB where
  dbInitTests : List DbInitTest
  users : List User
  images : List TestImage
  submissions : List LabelSubmission
deriving DecidableEq, Repr

/-- Autoincrement primary key assignment: one more than the largest id in the
table (fresh with respect to every existing row). -/
def nextRowId (ids : List Nat) : Nat := ids.foldr max 0 + 1

def nextUserId (us : List User) : Nat := nextRowId (us.map User.id)

def nextSubmissionId (ss : List LabelSubmission) : Nat :=
  nextRowId (ss.map LabelSubmission.id)

def nextDbInitId (ts : List DbInitTest) : Nat := nextRowId (ts.map DbInitTest.id)

/-! ## Queries (the `select` statements of app/main.py) -/

/-- `select(User).where(User.sub == sub)` as a result list. -/
def findUserBySub (db : DB) (s : String) : List User :=
  db.users.filter (fun u => u.sub == s)

/-- `select(TestImage).where(TestImage.id == image_id)` as a result list. -/
def findImageById (db : DB) (imgId : String) : List TestImage :=
  db.images.filter (fun i => i.id == imgId)

/-- `select(LabelSubmission).where(image_id == ..., user_id == ...)` as a
result list. -/
def pairSubs (db : DB) (imgId : String) (uid : Nat) : List LabelSubmission :=
  db.submissions.filter (fun s => s.image_id == imgId && s.user_id == uid)

/-- The `EXISTS` anti-join subquery of `get_next_image`: does the user already
have a submission for this image? -/
def hasLabeled (db : DB) (uid : Nat) (imgId : String) : Bool :=
  db.submissions.any (fun s => s.image_id == imgId && s.user_id == uid)

/-- `select(TestImage).where(~subquery)`: the images with no submission by the
user. -/
def unlabeledImages (db : DB) (uid : Nat) : List TestImage :=
  db.images.filter (fun img => !(hasLabeled db uid img.id))

/-- `order_by(TestImage.id).limit(1)` over a result list: the row whose string
id is smallest in the SQL (lexicographic) order. -/
def minByImageId : List TestImage → Option TestImage
  | [] => none
  | i :: is =>
    match minByImageId is with
    | none => some i
    | some j => if i.id ≤ j.id then some i else some j

/-! ## app/main.py handlers -/

/-- Verified Google claim set, as returned by `verify_google_token` (any field
may be absent). -/
structure TokenInfo where
  sub : Option String
  email : Option String
  given_name : Option String
  family_name : Option String
  picture : Option String
deriving DecidableEq, Repr

/-- The normalized user payload returned by `/api/auth/google` and `/api/me`. -/
structure UserOut where
  sub : String
  email : Option String
  given_name : Option String
  family_name : Option String
  picture : Option String
deriving DecidableEq, Repr

def userOut (u : User) : UserOut :=
  { sub := u.sub, email := u.email, given_name := u.given_name,
    family_name := u.family_name, picture := u.picture }

/-- Response of `/api/auth/google`. -/
structure AuthOut where
  ok : Bool
  token : Jwt
  user : UserOut
deriving DecidableEq, Repr

/-- Response of `/api/images/next`. -/
structure NextImageOut where
  id : Option String
  url : Option String
  suggested_label : Option String
  confidence : Option Rat
deriving DecidableEq, Repr

/-- The all-`None` sentinel returned when every image is labeled. -/
def nullNextImage : NextImageOut :=
  { id := none, url := none, suggested_label := none, confidence := none }

def imageOut (img : TestImage) : NextImageOut :=
  { id := some img.id, url := some img.url,
    suggested_label := img.suggested_label, confidence := img.confidence }

/-- Request body of `POST /api/labels`. -/
structure LabelIn where
  image_id : String
  label : String
deriving DecidableEq, Repr

/-- Response of `POST /api/labels`. -/
structure LabelOut where
  ok : Bool
  image_id : String
  label : String
deriving DecidableEq, Repr

/-- `setattr(user, field, val)` guarded by `val is not None and getattr(user,
field) != val`: the stored value after the loop body for one field. -/
def applyField (current incoming : Option String) : Option String :=
  match incoming with
  | none => current
  | some v => some v

/-- Whether the loop body of the update branch writes this field (used only
for the `changed` flag that decides whether `updated_at` is refreshed). -/
def fieldWillChange (current incoming : Option String) : Bool :=
  incoming.isSome && (current != incoming)

/-- The update branch of `auth_google`: overwrite each of the four profile
fields whose incoming claim is non-null (and differs); refresh `updated_at`
(the ORM `onupdate`) exactly when some field changed. -/
def updateUserFields (u : User) (info : TokenInfo) (now : Nat) : User :=
  let changed := fieldWillChange u.email info.email
    || fieldWillChange u.given_name info.given_name
    || fieldWillChange u.family_name info.family_name
    || fieldWillChange u.picture info.picture
  { u with
    email := applyField u.email info.email,
    given_name := applyField u.given_name info.given_name,
    family_name := applyField u.family_name info.family_name,
    picture := applyField u.picture info.picture,
    updated_at := if changed then now else u.updated_at }

/-- The insert branch of `auth_google`: a fresh `User` row for the verified
subject with the optional profile claims. -/
def newUserFromInfo (db : DB) (s : String) (info : TokenInfo) (now : Nat) : User :=
  { id := nextUserId db.users, sub := s, email := info.email,
    given_name := info.given_name, family_name := info.family_name,
    picture := info.picture, created_at := now, updated_at := now }

/-- `POST /api/auth/google`.  `credential` is the raw request field (Python
`not credential` → 400); `verified` is the outcome of `verify_google_token`
(exception → 401); a missing or empty `sub` claim (Python `not sub`) → 401.
Then upsert the user keyed on `sub` and issue a backend JWT.  The
`IntegrityError` catch of the source is unreachable in this sequential model
(the insert runs only when no row with this `sub` exists). -/
def auth_google (credential : String) (verified : Except Unit TokenInfo)
    (secretKey : String) (expireMinutes : Nat) (now : Nat) (db : DB) :
    Except Err AuthOut × DB :=
  if credential = "" then (.error (.badRequest "Missing Google credential"), db)
  else
    match verified with
    | .error _ => (.error (.unauthorized "Google verification failed"), db)
    | .ok info =>
      match info.sub with
      | none => (.error (.unauthorized "Google token missing subject (sub)"), db)
      | some s =>
        if s = "" then
          (.error (.unauthorized "Google token missing subject (sub)"), db)
        else
          match scalarOneOrNone (findUserBySub db s) with
          | .error e => (.error e, db)
          | .ok none =>
            let u := newUserFromInfo db s info now
            (.ok { ok := true, token := create_jwt s now secretKey expireMinutes,
                   user := userOut u },
             { db with users := db.users ++ [u] })
          | .ok (some u) =>
            let u' := updateUserFields u info now
            (.ok { ok := true, token := create_jwt s now secretKey expireMinutes,
                   user := userOut u' },
             { db with users := db.users.map (fun x => if x.id == u.id then u' else x) })

/-- `require_user`: resolve the JWT subject to a `User` row, 401 if absent. -/
def require_user (db : DB) (payload : Payload) : Except Err User :=
  match scalarOneOrNone (findUserBySub db payload.sub) with
  | .error e => .error e
  | .ok none => .error (.unauthorized "User not found")
  | .ok (some u) => .ok u

/-- `GET /api/me`: resolve the subject and return the profile fields. -/
def me (payload : Payload) (db : DB) : Except Err UserOut × DB :=
  match scalarOneOrNone (findUserBySub db payload.sub) with
  | .error e => (.error e, db)
  | .ok none => (.error (.unauthorized "User not found"), db)
  | .ok (some u) => (.ok (userOut u), db)

/-- `GET /api/images/next`: anti-join for the images the user has not yet
labeled, take the first by image id, or the all-`None` sentinel. -/
def get_next_image (payload : Payload) (db : DB) : Except Err NextImageOut × DB :=
  match require_user db payload with
  | .error e => (.error e, db)
  | .ok user =>
    match minByImageId (unlabeledImages db user.id) with
    | none => (.ok nullNextImage, db)
    | some img => (.ok (imageOut img), db)

/-- `POST /api/labels`: resolve the user, 404 if the image is unknown, then
upsert the `(image_id, user_id)` submission: update the label in place if a
row exists, insert a fresh row otherwise. -/
def submit_label (body : LabelIn) (payload : Payload) (now : Nat) (db : DB) :
    Except Err LabelOut × DB :=
  match require_user db payload with
  | .error e => (.error e, db)
  | .ok user =>
    match scalarOneOrNone (findImageById db body.image_id) with
    | .error e => (.error e, db)
    | .ok none => (.error (.notFound "Image not found"), db)
    | .ok (some _img) =>
      match scalarOneOrNone (pairSubs db body.image_id user.id) with
      | .error e => (.error e, db)
      | .ok (some s) =>
        let s' := { s with label := body.label, updated_at := now }
        (.ok { ok := true, image_id := body.image_id, label := body.label },
         { db with submissions :=
             db.submissions.map (fun x => if x.id == s.id then s' else x) })
      | .ok none =>
        let s : LabelSubmission :=
          { id := nextSubmissionId db.submissions, image_id := body.image_id,
            user_id := user.id, label := body.label,
            created_at := now, updated_at := now }
        (.ok { ok := true, image_id := body.image_id, label := body.label },
         { db with submissions := db.submissions ++ [s] })

/-- `GET /api/test`: insert a `DbInitTest` row with `testing_id = "img_001"`,
commit, and answer with a fixed message.  No authentication is involved: the
handler takes only the database. -/
def add_sample (db : DB) : String × DB :=
  let row : DbInitTest := { id := nextDbInitId db.dbInitTests, testing_id := "img_001" }
  ("Inserted sample", { db with dbInitTests := db.dbInitTests ++ [row] })

/-! ## Protected-request wrappers (FastAPI `Depends(get_current_user_payload)`
runs before the handler body). -/

def me_handler (authorization : String) (decodeToken : String → Option Jwt)
    (secretKey : String) (now : Nat) (db : DB) : Except Err UserOut × DB :=
  match get_current_user_payload decodeToken secretKey now authorization with
  | .error e => (.error e, db)
  | .ok payload => me payload db

def next_image_handler (authorization : String) (decodeToken : String → Option Jwt)
    (secretKey : String) (now : Nat) (db : DB) : Except Err NextImageOut × DB :=
  match get_current_user_payload decodeToken secretKey now authorization with
  | .error e => (.error e, db)
  | .ok payload => get_next_image payload db

def submit_label_handler (body : LabelIn) (authorization : String)
    (decodeToken : String → Option Jwt) (secretKey : String) (now : Nat)
    (db : DB) : Except Err LabelOut × DB :=
  match get_current_user_payload decodeToken secretKey now authorization with
  | .error e => (.error e, db)
  | .ok payload => submit_label body payload now db

/-! ## Seeding job (`seed_from_manifest_if_needed`) -/

/-- One entry of the fetched `manifest.json` `images` list; every field may be
absent. -/
structure ManifestItem where
  id : Option String
  url : Option String
  suggested_label : Option String
  confidence : Option Rat
deriving DecidableEq, Repr

/-- The loop body's decision for one manifest entry: skipped when `id` or
`url` is falsy in Python (absent or the empty string), otherwise the
`TestImage` row to insert. -/
def entryImage (now : Nat) (item : ManifestItem) : Option TestImage :=
  match item.id, item.url with
  | some i, some u =>
    if i = "" ∨ u = "" then none
    else some { id := i, url := u, suggested_label := item.suggested_label,
                confidence := item.confidence, created_at := now }
  | _, _ => none

/-- The `for item in images` loop: add the row for each non-skipped entry. -/
def seedInsert (now : Nat) (items : List ManifestItem) (acc : List TestImage) :
    List TestImage :=
  items.foldl (fun xs item =>
    match entryImage now item with
    | none => xs
    | some img => xs ++ [img]) acc

/-- `seed_from_manifest_if_needed`: no-op when the image table already has a
row; a fetch/parse failure (`fetched = error`) is swallowed leaving the
database unchanged; otherwise insert the non-skipped entries in one commit. -/
def seed_from_manifest_if_needed (fetched : Except Unit (List ManifestItem))
    (now : Nat) (db : DB) : DB :=
  if db.images.isEmpty then
    match fetched with
    | .error _ => db
    | .ok items => { db with images := seedInsert now items db.images }
  else db

/-! ## Data-model invariants (§3 of the spec, backed by the schema constraints
of app/models.py: the `uq_submission_image_user` unique constraint, the two
foreign keys, `User.sub` `unique=True`, and the primary keys). -/

def Invariant (db : DB) : Prop :=
  db.submissions.Pairwise (fun a b => ¬(a.image_id = b.image_id ∧ a.user_id = b.user_id)) ∧
  (∀ s ∈ db.submissions, ∃ u ∈ db.users, u.id = s.user_id) ∧
  (∀ s ∈ db.submissions, ∃ i ∈ db.images, i.id = s.image_id) ∧
  db.users.Pairwise (fun a b => a.sub ≠ b.sub) ∧
  db.users.Pairwise (fun a b => a.id ≠ b.id) ∧
  db.submissions.Pairwise (fun a b => a.id ≠ b.id) ∧
  db.images.Pairwise (fun a b => a.id ≠ b.id)

instance (db : DB) : Decidable (Invariant db) := by
  unfold Invariant; infer_instance

/-- `User.sub` is never reassigned: every user row survives the operation
with its id and its subject intact. -/
def subIdentityPreserved (db db' : DB) : Prop :=
  ∀ u ∈ db.users, ∃ v ∈ db'.users, v.id = u.id ∧ v.sub = u.sub

/-- A sequence of `POST /api/labels` calls for a fixed image by a fixed caller:
run them in order, stopping at the first error. -/
def submitSeq (imageId : String) (labels : List String) (payload : Payload)
    (now : Nat) (db : DB) : Except Err DB :=
  match labels with
  | [] => .ok db
  | l :: rest =>
    match submit_label { image_id := imageId, label := l } payload now db with
    | (.ok _, db') => submitSeq imageId rest payload now db'
    | (.error e, _) => .error e

/-! ## Concrete fixtures used by the witnesses -/

def sampleUser : User :=
  { id := 1, sub := "sub-123", email := some "a@example.com", given_name := none,
    family_name := none, picture := none, created_at := 0, updated_at := 0 }

def sampleImage : TestImage :=
  { id := "IMG_1.jpeg", url := "https://bucket/IMG_1.jpeg",
    suggested_label := some "dog", confidence := some (22 / 25 : Rat),
    created_at := 0 }

def sampleDB : DB :=
  { dbInitTests := [], users := [sampleUser], images := [sampleImage],
    submissions := [] }

def emptyDB : DB := { dbInitTests := [], users := [], images := [], submissions := [] }

def sampleSubmission : LabelSubmission :=
  { id := 1, image_id := "IMG_1.jpeg", user_id := 1, label := "cat",
    created_at := 0, updated_at := 0 }

/-- A database in which `sampleUser` has already labeled every image. -/
def labeledDB : DB :=
  { dbInitTests := [], users := [sampleUser], images := [sampleImage],
    submissions := [sampleSubmission] }

def sampleInfo : TokenInfo :=
  { sub := some "sub-999", email := some "b@example.com",
    given_name := some "Bea", family_name := none, picture := none }

def sampleInfoExisting : TokenInfo :=
  { sub := some "sub-123", email := some "new@example.com", given_name := none,
    family_name := none, picture := some "https://pic" }

def sampleManifest : List ManifestItem :=
  [{ id := some "IMG_1.jpeg", url := some "https://x/1",
     suggested_label := some "dog", confidence := some (22 / 25 : Rat) },
   { id := some "IMG_2.jpeg", url := none, suggested_label := none,
     confidence := none },
   { id := some "", url := some "https://x/3", suggested_label := none,
     confidence := none }]

/-! ## Generic list lemmas -/

lemma scalarOneOrNone_ok_none {α : Type} {l : List α}
    (h : scalarOneOrNone l = .ok none) : l = [] := by
  cases l with
  | nil => rfl
  | cons a t =>
    cases t with
    | nil => simp [scalarOneOrNone] at h
    | cons b t' => simp [scalarOneOrNone] at h

lemma scalarOneOrNone_ok_some {α : Type} {l : List α} {a : α}
    (h : scalarOneOrNone l = .ok (some a)) : l = [a] := by
  cases l with
  | nil => simp [scalarOneOrNone] at h
  | cons x t =>
    cases t with
    | nil => simp [scalarOneOrNone] at h; simp [h]
    | cons b t' => simp [scalarOneOrNone] at h

lemma filter_pairwise_singleton {α : Type} (p : α → Bool) {l : List α} {u : α}
    (hu : u ∈ l) (hpu : p u = true)
    (hpw : l.Pairwise (fun a b => ¬(p a = true ∧ p b = true))) :
    l.filter p = [u] := by
  induction l with
  | nil => cases hu
  | cons a t ih =>
    rcases List.pairwise_cons.mp hpw with ⟨ha, hpt⟩
    rcases List.mem_cons.mp hu with rfl | hut
    · have ht : t.filter p = [] := by
        refine List.filter_eq_nil_iff.mpr (fun b hb hpb => ?_)
        exact ha b hb ⟨hpu, hpb⟩
      simp [List.filter_cons, hpu, ht]
    · have hpa : p a = false := by
        by_contra hcon
        exact ha u hut ⟨Bool.of_not_eq_false hcon, hpu⟩
      simp [List.filter_cons, hpa, ih hut hpt]

lemma filter_pairwise_cases {α : Type} (p : α → Bool) {l : List α}
    (hpw : l.Pairwise (fun a b => ¬(p a = true ∧ p b = true))) :
    l.filter p = [] ∨ ∃ a, l.filter p = [a] := by
  induction l with
  | nil => exact Or.inl rfl
  | cons a t ih =>
    rcases List.pairwise_cons.mp hpw with ⟨ha, hpt⟩
    by_cases hpa : p a = true
    · have ht : t.filter p = [] := by
        refine List.filter_eq_nil_iff.mpr (fun b hb hpb => ?_)
        exact ha b hb ⟨hpa, hpb⟩
      exact Or.inr ⟨a, by simp [List.filter_cons, hpa, ht]⟩
    · have hpa' : p a = false := Bool.eq_false_iff.mpr hpa
      rcases ih hpt with h | ⟨b, hb⟩
      · exact Or.inl (by simp [List.filter_cons, hpa', h])
      · exact Or.inr ⟨b, by simp [List.filter_cons, hpa', hb]⟩

lemma eq_of_mem_pairwise_ne {α β : Type} (f : α → β) {l : List α} {x y : α}
    (hpw : l.Pairwise (fun a b => f a ≠ f b)) (hx : x ∈ l) (hy : y ∈ l)
    (hf : f x = f y) : x = y := by
  induction l with
  | nil => cases hx
  | cons a t ih =>
    rcases List.pairwise_cons.mp hpw with ⟨ha, hpt⟩
    rcases List.mem_cons.mp hx with rfl | hxt
    · rcases List.mem_cons.mp hy with rfl | hyt
      · rfl
      · exact absurd hf (ha y hyt)
    · rcases List.mem_cons.mp hy with rfl | hyt
      · exact absurd hf.symm (ha x hxt)
      · exact ih hpt hxt hyt

lemma filter_map_comm {α : Type} (f : α → α) (p : α → Bool) {l : List α}
    (h : ∀ x ∈ l, p (f x) = p x) : (l.map f).filter p = (l.filter p).map f := by
  induction l with
  | nil => rfl
  | cons a t ih =>
    have ha := h a (List.mem_cons_self a t)
    have ht : ∀ x ∈ t, p (f x) = p x := fun x hx => h x (List.mem_cons_of_mem a hx)
    by_cases hpa : p a = true
    · simp [List.filter_cons, hpa, ha.trans hpa, ih ht]
    · have hpa' : p a = false := Bool.eq_false_iff.mpr hpa
      simp [List.filter_cons, hpa', ha.trans hpa', ih ht]

lemma pairwise_map_of_pointwise {α : Type} {R : α → α → Prop} (f : α → α)
    {l : List α} (h : ∀ x ∈ l, ∀ y ∈ l, R x y → R (f x) (f y))
    (hpw : l.Pairwise R) : (l.map f).Pairwise R := by
  induction l with
  | nil => exact List.Pairwise.nil
  | cons a t ih =>
    rcases List.pairwise_cons.mp hpw with ⟨ha, hpt⟩
    refine List.pairwise_cons.mpr ⟨?_, ?_⟩
    · intro b hb
      rcases List.mem_map.mp hb with ⟨y, hyt, rfl⟩
      exact h a (List.mem_cons_self a t) y (List.mem_cons_of_mem a hyt) (ha y hyt)
    · exact ih (fun x hx y hy => h x (List.mem_cons_of_mem a hx) y (List.mem_cons_of_mem a hy)) hpt

lemma le_foldr_max {l : List Nat} {x : Nat} (hx : x ∈ l) : x ≤ l.foldr max 0 := by
  induction l with
  | nil => cases hx
  | cons a t ih =>
    rcases List.mem_cons.mp hx with rfl | hxt
    · exact le_max_left _ _
    · exact le_trans (ih hxt) (le_max_right _ _)

lemma nextRowId_not_mem {ids : List Nat} : nextRowId ids ∉ ids := by
  intro hmem
  have := le_foldr_max hmem
  simp [nextRowId] at this

lemma minByImageId_mem {l : List TestImage} {m : TestImage}
    (h : minByImageId l = some m) : m ∈ l := by
  induction l with
  | nil => simp [minByImageId] at h
  | cons i is ih =>
    simp only [minByImageId] at h
    cases hrec : minByImageId is with
    | none => rw [hrec] at h; simp at h; simp [h]
    | some j =>
      rw [hrec] at h
      by_cases hle : i.id ≤ j.id
      · simp [hle] at h; simp [h]
      · simp [hle] at h
        exact List.mem_cons_of_mem i (ih (hrec.trans (by rw [h])))

lemma minByImageId_none {l : List TestImage}
    (h : minByImageId l = none) : l = [] := by
  cases l with
  | nil => rfl
  | cons i is =>
    simp only [minByImageId] at h
    cases hrec : minByImageId is with
    | none => rw [hrec] at h; simp at h
    | some j => rw [hrec] at h; by_cases hle : i.id ≤ j.id <;> simp [hle] at h

lemma minByImageId_le {l : List TestImage} :
    ∀ {m : TestImage}, minByImageId l = some m → ∀ x ∈ l, m.id ≤ x.id := by
  induction l with
  | nil => intro m h; simp [minByImageId] at h
  | cons i is ih =>
    intro m h x hx
    simp only [minByImageId] at h
    cases hrec : minByImageId is with
    | none =>
      rw [hrec] at h
      have his : is = [] := minByImageId_none hrec
      subst his
      simp at h
      rcases List.mem_cons.mp hx with rfl | hxt
      · simp [h]
      · cases hxt
    | some j =>
      rw [hrec] at h
      have hj : ∀ y ∈ is, j.id ≤ y.id := ih hrec
      by_cases hle : i.id ≤ j.id
      · simp [hle] at h
        subst h
        rcases List.mem_cons.mp hx with rfl | hxt
        · exact le_refl _
        · exact le_trans hle (hj x hxt)
      · simp [hle] at h
        subst h
        rcases List.mem_cons.mp hx with rfl | hxt
        · exact le_of_not_le hle
        · exact hj x hxt

lemma seedInsert_eq (now : Nat) (items : List ManifestItem) (acc : List TestImage) :
    seedInsert now items acc = acc ++ items.filterMap (entryImage now) := by
  induction items generalizing acc with
  | nil => simp [seedInsert]
  | cons item t ih =>
    simp only [seedInsert, List.foldl_cons, List.filterMap_cons]
    cases h : entryImage now item with
    | none => simpa [seedInsert, h] using ih acc
    | some img => simpa [seedInsert, h] using ih (acc ++ [img])

/-! ## Query lemmas -/

lemma findUserBySub_eq_singleton {db : DB} {u : User}
    (hpw : db.users.Pairwise (fun a b => a.sub ≠ b.sub)) (hu : u ∈ db.users) :
    findUserBySub db u.sub = [u] := by
  refine filter_pairwise_singleton _ hu (by simp) (hpw.imp ?_)
  intro a b hne hc
  rcases hc with ⟨ha, hb⟩
  exact hne ((beq_iff_eq.mp ha).trans (beq_iff_eq.mp hb).symm)

lemma findUserBySub_mem {db : DB} {s : String} {u : User}
    (h : u ∈ findUserBySub db s) : u ∈ db.users ∧ u.sub = s := by
  have := List.mem_filter.mp h
  exact ⟨this.1, beq_iff_eq.mp this.2⟩

lemma findUserBySub_empty {db : DB} {s : String}
    (h : findUserBySub db s = []) : ∀ u ∈ db.users, u.sub ≠ s := by
  intro u hu hc
  have := List.filter_eq_nil_iff.mp h u hu
  simp [hc] at this

lemma findImageById_eq_singleton {db : DB} {img : TestImage}
    (hpw : db.images.Pairwise (fun a b => a.id ≠ b.id)) (himg : img ∈ db.images) :
    findImageById db img.id = [img] := by
  refine filter_pairwise_singleton _ himg (by simp) (hpw.imp ?_)
  intro a b hne hc
  rcases hc with ⟨ha, hb⟩
  exact hne ((beq_iff_eq.mp ha).trans (beq_iff_eq.mp hb).symm)

lemma findImageById_empty {db : DB} {imgId : String}
    (h : findImageById db imgId = []) : ∀ i ∈ db.images, i.id ≠ imgId := by
  intro i hi hc
  have := List.filter_eq_nil_iff.mp h i hi
  simp [hc] at this

lemma findImageById_cases (db : DB) (imgId : String)
    (hpw : db.images.Pairwise (fun a b => a.id ≠ b.id)) :
    findImageById db imgId = [] ∨ ∃ img, findImageById db imgId = [img] := by
  refine filter_pairwise_cases _ (hpw.imp ?_)
  intro a b hne hc
  rcases hc with ⟨ha, hb⟩
  exact hne ((beq_iff_eq.mp ha).trans (beq_iff_eq.mp hb).symm)

lemma findImageById_mem {db : DB} {imgId : String} {img : TestImage}
    (h : img ∈ findImageById db imgId) : img ∈ db.images ∧ img.id = imgId := by
  have := List.mem_filter.mp h
  exact ⟨this.1, beq_iff_eq.mp this.2⟩

lemma pairSubs_cases (db : DB) (imgId : String) (uid : Nat)
    (hpw : db.submissions.Pairwise
      (fun a b => ¬(a.image_id = b.image_id ∧ a.user_id = b.user_id))) :
    pairSubs db imgId uid = [] ∨ ∃ s, pairSubs db imgId uid = [s] := by
  refine filter_pairwise_cases _ (hpw.imp ?_)
  intro a b hne hc
  rcases hc with ⟨ha, hb⟩
  simp only [Bool.and_eq_true, beq_iff_eq] at ha hb
  exact hne ⟨ha.1.trans hb.1.symm, ha.2.trans hb.2.symm⟩

lemma pairSubs_mem {db : DB} {imgId : String} {uid : Nat} {s : LabelSubmission}
    (h : s ∈ pairSubs db imgId uid) :
    s ∈ db.submissions ∧ s.image_id = imgId ∧ s.user_id = uid := by
  have := List.mem_filter.mp h
  simp only [Bool.and_eq_true, beq_iff_eq] at this
  exact ⟨this.1, this.2.1, this.2.2⟩

lemma pairSubs_empty {db : DB} {imgId : String} {uid : Nat}
    (h : pairSubs db imgId uid = []) :
    ∀ s ∈ db.submissions, ¬(s.image_id = imgId ∧ s.user_id = uid) := by
  intro s hs hc
  have := List.filter_eq_nil_iff.mp h s hs
  simp [hc.1, hc.2] at this

lemma require_user_ok {db : DB} {payload : Payload} {u : User}
    (hpw : db.users.Pairwise (fun a b => a.sub ≠ b.sub)) (hu : u ∈ db.users)
    (hs : u.sub = payload.sub) : require_user db payload = .ok u := by
  have hfind : findUserBySub db payload.sub = [u] := by
    rw [← hs]; exact findUserBySub_eq_singleton hpw hu
  rw [require_user, hfind]
  rfl

lemma require_user_ok_inv {db : DB} {payload : Payload} {u : User}
    (h : require_user db payload = .ok u) : u ∈ db.users ∧ u.sub = payload.sub := by
  rw [require_user] at h
  cases hs : scalarOneOrNone (findUserBySub db payload.sub) with
  | error e => rw [hs] at h; cases h
  | ok o =>
    cases o with
    | none => rw [hs] at h; cases h
    | some v =>
      rw [hs] at h
      cases h
      have hfind := scalarOneOrNone_ok_some hs
      exact findUserBySub_mem (hfind ▸ List.mem_singleton.mpr rfl)

/-! ## Handler equation lemmas -/

lemma me_snd (payload : Payload) (db : DB) : (me payload db).2 = db := by
  rw [me]
  cases scalarOneOrNone (findUserBySub db payload.sub) with
  | error e => rfl
  | ok o => cases o <;> rfl

lemma get_next_image_eq_none {payload : Payload} {db : DB} {u : User}
    (hru : require_user db payload = .ok u)
    (hmin : minByImageId (unlabeledImages db u.id) = none) :
    get_next_image payload db = (.ok nullNextImage, db) := by
  rw [get_next_image, hru]
  simp only [hmin]

lemma get_next_image_eq_some {payload : Payload} {db : DB} {u : User}
    {img : TestImage} (hru : require_user db payload = .ok u)
    (hmin : minByImageId (unlabeledImages db u.id) = some img) :
    get_next_image payload db = (.ok (imageOut img), db) := by
  rw [get_next_image, hru]
  simp only [hmin]

lemma get_next_image_snd (payload : Payload) (db : DB) :
    (get_next_image payload db).2 = db := by
  cases hru : require_user db payload with
  | error e => rw [get_next_image, hru]
  | ok u =>
    cases hmin : minByImageId (unlabeledImages db u.id) with
    | none => rw [get_next_image_eq_none hru hmin]
    | some img => rw [get_next_image_eq_some hru hmin]

lemma submit_label_eq_404 {body : LabelIn} {payload : Payload} {now : Nat}
    {db : DB} {u : User} (hru : require_user db payload = .ok u)
    (hempty : findImageById db body.image_id = []) :
    submit_label body payload now db = (.error (.notFound "Image not found"), db) := by
  rw [submit_label, hru]
  simp only [hempty, scalarOneOrNone]

lemma submit_label_eq_insert {body : LabelIn} {payload : Payload} {now : Nat}
    {db : DB} {u : User} {img : TestImage}
    (hru : require_user db payload = .ok u)
    (hfind : findImageById db body.image_id = [img])
    (hemp : pairSubs db body.image_id u.id = []) :
    submit_label body payload now db =
      (.ok { ok := true, image_id := body.image_id, label := body.label },
       { db with submissions := db.submissions ++
          [{ id := nextSubmissionId db.submissions, image_id := body.image_id,
             user_id := u.id, label := body.label,
             created_at := now, updated_at := now }] }) := by
  rw [submit_label, hru]
  simp only [hfind, hemp, scalarOneOrNone]

lemma submit_label_eq_update {body : LabelIn} {payload : Payload} {now : Nat}
    {db : DB} {u : User} {img : TestImage} {s0 : LabelSubmission}
    (hru : require_user db payload = .ok u)
    (hfind : findImageById db body.image_id = [img])
    (hone : pairSubs db body.image_id u.id = [s0]) :
    submit_label body payload now db =
      (.ok { ok := true, image_id := body.image_id, label := body.label },
       { db with submissions := db.submissions.map (fun x =>
           if x.id == s0.id then { s0 with label := body.label, updated_at := now }
           else x) }) := by
  rw [submit_label, hru]
  simp only [hfind, hone, scalarOneOrNone]

lemma auth_google_eq_insert {cred : String} {info : TokenInfo} {s key : String}
    {m now : Nat} {db : DB} (hc : cred ≠ "") (hs : info.sub = some s)
    (hne : s ≠ "") (hemp : findUserBySub db s = []) :
    auth_google cred (.ok info) key m now db =
      (.ok { ok := true, token := create_jwt s now key m,
             user := userOut (newUserFromInfo db s info now) },
       { db with users := db.users ++ [newUserFromInfo db s info now] }) := by
  rw [auth_google]
  simp only [hc, hs, hne, hemp, scalarOneOrNone, if_false, if_neg]

lemma auth_google_eq_update {cred : String} {info : TokenInfo} {s key : String}
    {m now : Nat} {db : DB} {u : User} (hc : cred ≠ "") (hs : info.sub = some s)
    (hne : s ≠ "") (hone : findUserBySub db s = [u]) :
    auth_google cred (.ok info) key m now db =
      (.ok { ok := true, token := create_jwt s now key m,
             user := userOut (updateUserFields u info now) },
       { db with users := db.users.map (fun x =>
           if x.id == u.id then updateUserFields u info now else x) }) := by
  rw [auth_google]
  simp only [hc, hs, hne, hone, scalarOneOrNone, if_false, if_neg]

/-! ## Invariant preservation: submit_label -/

lemma subIdentityPreserved_refl (db : DB) : subIdentityPreserved db db :=
  fun u hu => ⟨u, hu, rfl, rfl⟩

lemma submit_insert_inv {db : DB} {body : LabelIn} {u : User} {img : TestImage}
    {now : Nat} (hInv : Invariant db) (hu : u ∈ db.users)
    (himg : img ∈ db.images) (hid : img.id = body.image_id)
    (hemp : pairSubs db body.image_id u.id = []) :
    Invariant { db with submissions := db.submissions ++
      [{ id := nextSubmissionId db.submissions, image_id := body.image_id,
         user_id := u.id, label := body.label,
         created_at := now, updated_at := now }] } := by
  obtain ⟨h1, h2, h3, h4, h5, h6, h7⟩ := hInv
  refine ⟨?_, ?_, ?_, h4, h5, ?_, h7⟩
  · refine List.pairwise_append.mpr ⟨h1, List.pairwise_singleton _ _, ?_⟩
    intro a ha b hb hc
    rw [List.mem_singleton] at hb
    subst hb
    exact pairSubs_empty hemp a ha ⟨hc.1, hc.2⟩
  · intro s hs
    rcases List.mem_append.mp hs with hsl | hsr
    · exact h2 s hsl
    · have hs' := List.mem_singleton.mp hsr
      subst hs'
      exact ⟨u, hu, rfl⟩
  · intro s hs
    rcases List.mem_append.mp hs with hsl | hsr
    · exact h3 s hsl
    · have hs' := List.mem_singleton.mp hsr
      subst hs'
      exact ⟨img, himg, hid⟩
  · refine List.pairwise_append.mpr ⟨h6, List.pairwise_singleton _ _, ?_⟩
    intro a ha b hb hc
    rw [List.mem_singleton] at hb
    subst hb
    simp only [nextSubmissionId] at hc
    have hmem : a.id ∈ db.submissions.map LabelSubmission.id :=
      List.mem_map.mpr ⟨a, ha, rfl⟩
    rw [hc] at hmem
    exact nextRowId_not_mem hmem

lemma pairSubs_after_insert (db : DB) (body : LabelIn) (uid : Nat) (now : Nat) :
    pairSubs { db with submissions := db.submissions ++
      [{ id := nextSubmissionId db.submissions, image_id := body.image_id,
         user_id := uid, label := body.label,
         created_at := now, updated_at := now }] } body.image_id uid =
    pairSubs db body.image_id uid ++
      [{ id := nextSubmissionId db.submissions, image_id := body.image_id,
         user_id := uid, label := body.label,
         created_at := now, updated_at := now }] := by
  simp [pairSubs, List.filter_append]

lemma submit_update_point {db : DB} {s0 : LabelSubmission} (lbl : String)
    (now : Nat) (h6 : db.submissions.Pairwise (fun a b => a.id ≠ b.id))
    (hs0 : s0 ∈ db.submissions) :
    ∀ x ∈ db.submissions,
      ((fun x => if x.id == s0.id then { s0 with label := lbl, updated_at := now }
        else x) x).image_id = x.image_id ∧
      ((fun x => if x.id == s0.id then { s0 with label := lbl, updated_at := now }
        else x) x).user_id = x.user_id ∧
      ((fun x => if x.id == s0.id then { s0 with label := lbl, updated_at := now }
        else x) x).id = x.id := by
  intro x hx
  by_cases hb : (x.id == s0.id) = true
  · have hxe : x = s0 :=
      eq_of_mem_pairwise_ne LabelSubmission.id h6 hx hs0 (beq_iff_eq.mp hb)
    subst hxe
    simp [hb]
  · have hb' : (x.id == s0.id) = false := Bool.eq_false_iff.mpr hb
    simp [hb']

lemma submit_update_inv {db : DB} (body : LabelIn) {uid : Nat} {s0 : LabelSubmission}
    (now : Nat) (hInv : Invariant db)
    (hone : pairSubs db body.image_id uid = [s0]) :
    Invariant { db with submissions := db.submissions.map (fun x =>
      if x.id == s0.id then { s0 with label := body.label, updated_at := now }
      else x) } ∧
    pairSubs { db with submissions := db.submissions.map (fun x =>
      if x.id == s0.id then { s0 with label := body.label, updated_at := now }
      else x) } body.image_id uid =
      [{ s0 with label := body.label, updated_at := now }] := by
  obtain ⟨h1, h2, h3, h4, h5, h6, h7⟩ := hInv
  have hs0 : s0 ∈ db.submissions ∧ s0.image_id = body.image_id ∧ s0.user_id = uid :=
    pairSubs_mem (hone ▸ List.mem_singleton.mpr rfl)
  have hpoint := submit_update_point body.label now h6 hs0.1
  constructor
  · refine ⟨?_, ?_, ?_, h4, h5, ?_, h7⟩
    · refine pairwise_map_of_pointwise _ ?_ h1
      intro x hx y hy hr hc
      rcases hpoint x hx with ⟨hxi, hxu, _⟩
      rcases hpoint y hy with ⟨hyi, hyu, _⟩
      exact hr ⟨hxi ▸ hyi ▸ hc.1, hxu ▸ hyu ▸ hc.2⟩
    · intro s hs
      rcases List.mem_map.mp hs with ⟨x, hx, rfl⟩
      rcases hpoint x hx with ⟨_, hxu, _⟩
      rw [hxu]
      exact h2 x hx
    · intro s hs
      rcases List.mem_map.mp hs with ⟨x, hx, rfl⟩
      rcases hpoint x hx with ⟨hxi, _, _⟩
      rw [hxi]
      exact h3 x hx
    · refine pairwise_map_of_pointwise _ ?_ h6
      intro x hx y hy hr
      rcases hpoint x hx with ⟨_, _, hxid⟩
      rcases hpoint y hy with ⟨_, _, hyid⟩
      rw [hxid, hyid]
      exact hr
  · have hcomm : (db.submissions.map (fun x =>
        if x.id == s0.id then { s0 with label := body.label, updated_at := now }
        else x)).filter (fun s => s.image_id == body.image_id && s.user_id == uid) =
        (db.submissions.filter (fun s => s.image_id == body.image_id && s.user_id == uid)).map
          (fun x => if x.id == s0.id then { s0 with label := body.label, updated_at := now }
            else x) := by
      refine filter_map_comm _ _ ?_
      intro x hx
      rcases hpoint x hx with ⟨hxi, hxu, _⟩
      rw [hxi, hxu]
    show (db.submissions.map _).filter _ = _
    rw [hcomm]
    have hone' : db.submissions.filter
        (fun s => s.image_id == body.image_id && s.user_id == uid) = [s0] := hone
    rw [hone']
    simp

lemma submit_label_inv (body : LabelIn) (payload : Payload) (now : Nat) {db : DB}
    (hInv : Invariant db) :
    Invariant (submit_label body payload now db).2 ∧
    (submit_label body payload now db).2.users = db.users ∧
    (submit_label body payload now db).2.images = db.images := by
  cases hru : require_user db payload with
  | error e =>
    rw [submit_label, hru]
    exact ⟨hInv, rfl, rfl⟩
  | ok u =>
    obtain ⟨hu, hsub⟩ := require_user_ok_inv hru
    rcases findImageById_cases db body.image_id
        hInv.2.2.2.2.2.2 with hempty | ⟨img, hfind⟩
    · rw [submit_label_eq_404 hru hempty]
      exact ⟨hInv, rfl, rfl⟩
    · have himg : img ∈ db.images ∧ img.id = body.image_id :=
        findImageById_mem (hfind ▸ List.mem_singleton.mpr rfl)
      rcases pairSubs_cases db body.image_id u.id
          hInv.1 with hemp | ⟨s0, hone⟩
      · rw [submit_label_eq_insert hru hfind hemp]
        exact ⟨submit_insert_inv hInv hu himg.1 himg.2 hemp, rfl, rfl⟩
      · rw [submit_label_eq_update hru hfind hone]
        exact ⟨(submit_update_inv body now hInv hone).1, rfl, rfl⟩

/-! ## Invariant preservation: auth_google -/

lemma findUserBySub_cases (db : DB) (s : String)
    (hpw : db.users.Pairwise (fun a b => a.sub ≠ b.sub)) :
    findUserBySub db s = [] ∨ ∃ u, findUserBySub db s = [u] := by
  refine filter_pairwise_cases _ (hpw.imp ?_)
  intro a b hne hc
  rcases hc with ⟨ha, hb⟩
  exact hne ((beq_iff_eq.mp ha).trans (beq_iff_eq.mp hb).symm)

lemma auth_insert_facts {db : DB} {s : String} (info : TokenInfo) (now : Nat)
    (hInv : Invariant db) (hemp : findUserBySub db s = []) :
    Invariant { db with users := db.users ++ [newUserFromInfo db s info now] } ∧
    findUserBySub { db with users := db.users ++ [newUserFromInfo db s info now] } s
      = [newUserFromInfo db s info now] ∧
    subIdentityPreserved db { db with users := db.users ++ [newUserFromInfo db s info now] } := by
  obtain ⟨h1, h2, h3, h4, h5, h6, h7⟩ := hInv
  refine ⟨⟨h1, ?_, h3, ?_, ?_, h6, h7⟩, ?_, ?_⟩
  · intro t ht
    rcases h2 t ht with ⟨u, hu, hid⟩
    exact ⟨u, List.mem_append_left _ hu, hid⟩
  · refine List.pairwise_append.mpr ⟨h4, List.pairwise_singleton _ _, ?_⟩
    intro a ha b hb
    rw [List.mem_singleton] at hb
    subst hb
    exact findUserBySub_empty hemp a ha
  · refine List.pairwise_append.mpr ⟨h5, List.pairwise_singleton _ _, ?_⟩
    intro a ha b hb hc
    rw [List.mem_singleton] at hb
    subst hb
    simp only [newUserFromInfo, nextUserId] at hc
    have hmem : a.id ∈ db.users.map User.id := List.mem_map.mpr ⟨a, ha, rfl⟩
    rw [hc] at hmem
    exact nextRowId_not_mem hmem
  · show (db.users ++ [newUserFromInfo db s info now]).filter (fun u => u.sub == s) = _
    rw [List.filter_append]
    have h0 : db.users.filter (fun u => u.sub == s) = [] := hemp
    rw [h0]
    simp [newUserFromInfo]
  · intro u hu
    exact ⟨u, List.mem_append_left _ hu, rfl, rfl⟩

lemma auth_update_point {db : DB} {u : User} (info : TokenInfo) (now : Nat)
    (h5 : db.users.Pairwise (fun a b => a.id ≠ b.id)) (hu : u ∈ db.users) :
    ∀ x ∈ db.users,
      ((fun x => if x.id == u.id then updateUserFields u info now else x) x).sub = x.sub ∧
      ((fun x => if x.id == u.id then updateUserFields u info now else x) x).id = x.id := by
  intro x hx
  by_cases hb : (x.id == u.id) = true
  · have hxe : x = u := eq_of_mem_pairwise_ne User.id h5 hx hu (beq_iff_eq.mp hb)
    subst hxe
    simp [hb, updateUserFields]
  · have hb' : (x.id == u.id) = false := Bool.eq_false_iff.mpr hb
    simp [hb']

lemma auth_update_facts {db : DB} {s : String} (info : TokenInfo) (now : Nat)
    {u : User} (hInv : Invariant db) (hone : findUserBySub db s = [u]) :
    Invariant { db with users := db.users.map (fun x =>
      if x.id == u.id then updateUserFields u info now else x) } ∧
    findUserBySub { db with users := db.users.map (fun x =>
      if x.id == u.id then updateUserFields u info now else x) } s
      = [updateUserFields u info now] ∧
    subIdentityPreserved db { db with users := db.users.map (fun x =>
      if x.id == u.id then updateUserFields u info now else x) } ∧
    (db.users.map (fun x =>
      if x.id == u.id then updateUserFields u info now else x)).length
      = db.users.length := by
  obtain ⟨h1, h2, h3, h4, h5, h6, h7⟩ := hInv
  have humem : u ∈ db.users ∧ u.sub = s :=
    findUserBySub_mem (hone ▸ List.mem_singleton.mpr rfl)
  have hpoint := auth_update_point info now h5 humem.1
  refine ⟨⟨h1, ?_, h3, ?_, ?_, h6, h7⟩, ?_, ?_, List.length_map _ _⟩
  · intro t ht
    rcases h2 t ht with ⟨v, hv, hid⟩
    refine ⟨(fun x => if x.id == u.id then updateUserFields u info now else x) v,
      List.mem_map.mpr ⟨v, hv, rfl⟩, ?_⟩
    rw [(hpoint v hv).2]
    exact hid
  · refine pairwise_map_of_pointwise _ ?_ h4
    intro x hx y hy hr
    rw [(hpoint x hx).1, (hpoint y hy).1]
    exact hr
  · refine pairwise_map_of_pointwise _ ?_ h5
    intro x hx y hy hr
    rw [(hpoint x hx).2, (hpoint y hy).2]
    exact hr
  · have hcomm : (db.users.map (fun x =>
        if x.id == u.id then updateUserFields u info now else x)).filter
          (fun v => v.sub == s) =
        (db.users.filter (fun v => v.sub == s)).map
          (fun x => if x.id == u.id then updateUserFields u info now else x) := by
      refine filter_map_comm _ _ ?_
      intro x hx
      rw [(hpoint x hx).1]
    show (db.users.map _).filter _ = _
    rw [hcomm]
    have hone' : db.users.filter (fun v => v.sub == s) = [u] := hone
    rw [hone']
    simp
  · intro v hv
    refine ⟨(fun x => if x.id == u.id then updateUserFields u info now else x) v,
      List.mem_map.mpr ⟨v, hv, rfl⟩, (hpoint v hv).2, (hpoint v hv).1⟩

lemma auth_google_inv {cred : String} {verified : Except Unit TokenInfo}
    {key : String} {m now : Nat} {db : DB} (hInv : Invariant db) :
    Invariant (auth_google cred verified key m now db).2 ∧
    subIdentityPreserved db (auth_google cred verified key m now db).2 := by
  by_cases hc : cred = ""
  · rw [auth_google.eq_def, if_pos hc]
    exact ⟨hInv, subIdentityPreserved_refl db⟩
  · cases verified with
    | error e =>
      rw [auth_google.eq_def, if_neg hc]
      exact ⟨hInv, subIdentityPreserved_refl db⟩
    | ok info =>
      cases hsub : info.sub with
      | none =>
        rw [auth_google.eq_def, if_neg hc]
        simp only [hsub]
        exact ⟨hInv, subIdentityPreserved_refl db⟩
      | some s =>
        by_cases hse : s = ""
        · rw [auth_google.eq_def, if_neg hc]
          simp only [hsub, if_pos hse]
          exact ⟨hInv, subIdentityPreserved_refl db⟩
        · rcases findUserBySub_cases db s hInv.2.2.2.1 with hemp | ⟨u, hone⟩
          · rw [auth_google_eq_insert hc hsub hse hemp]
            have hfacts := auth_insert_facts info now hInv hemp
            exact ⟨hfacts.1, hfacts.2.2⟩
          · rw [auth_google_eq_update hc hsub hse hone]
            have hfacts := auth_update_facts info now hInv hone
            exact ⟨hfacts.1, hfacts.2.2.1⟩

/-! ## Run lemmas: successful calls -/

lemma auth_google_run {cred : String} {info : TokenInfo} {s key : String}
    {m now : Nat} {db : DB} (hInv : Invariant db) (hc : cred ≠ "")
    (hs : info.sub = some s) (hse : s ≠ "") :
    (auth_google cred (.ok info) key m now db).1.isOk = true ∧
    Invariant (auth_google cred (.ok info) key m now db).2 ∧
    (∃ u, findUserBySub (auth_google cred (.ok info) key m now db).2 s = [u]) ∧
    (findUserBySub db s ≠ [] →
      (auth_google cred (.ok info) key m now db).2.users.length = db.users.length) := by
  rcases findUserBySub_cases db s hInv.2.2.2.1 with hemp | ⟨u, hone⟩
  · rw [auth_google_eq_insert hc hs hse hemp]
    have hfacts := auth_insert_facts info now hInv hemp
    exact ⟨rfl, hfacts.1, ⟨_, hfacts.2.1⟩, fun hne => absurd hemp hne⟩
  · rw [auth_google_eq_update hc hs hse hone]
    have hfacts := auth_update_facts info now hInv hone
    exact ⟨rfl, hfacts.1, ⟨_, hfacts.2.1⟩, fun _ => hfacts.2.2.2⟩

lemma submit_label_run (body : LabelIn) (payload : Payload) (now : Nat) {db : DB}
    {u : User} (hInv : Invariant db) (hu : u ∈ db.users)
    (hs : u.sub = payload.sub) (himg : ∃ img ∈ db.images, img.id = body.image_id) :
    (submit_label body payload now db).1 =
      .ok { ok := true, image_id := body.image_id, label := body.label } ∧
    Invariant (submit_label body payload now db).2 ∧
    (submit_label body payload now db).2.users = db.users ∧
    (submit_label body payload now db).2.images = db.images ∧
    ∃ t, pairSubs (submit_label body payload now db).2 body.image_id u.id = [t] ∧
      t.label = body.label := by
  obtain ⟨h1, h2, h3, h4, h5, h6, h7⟩ := hInv
  have hru : require_user db payload = .ok u := require_user_ok h4 hu hs
  obtain ⟨img, himgmem, hid⟩ := himg
  have hfind : findImageById db body.image_id = [img] := by
    rw [← hid]
    exact findImageById_eq_singleton h7 himgmem
  rcases pairSubs_cases db body.image_id u.id h1
      with hemp | ⟨s0, hone⟩
  · rw [submit_label_eq_insert hru hfind hemp]
    refine ⟨rfl, submit_insert_inv ⟨h1, h2, h3, h4, h5, h6, h7⟩ hu himgmem hid hemp,
      rfl, rfl, ?_⟩
    refine ⟨⟨nextSubmissionId db.submissions, body.image_id, u.id, body.label,
      now, now⟩, ?_, rfl⟩
    rw [pairSubs_after_insert, hemp, List.nil_append]
  · rw [submit_label_eq_update hru hfind hone]
    have hfacts := submit_update_inv body now
      ⟨h1, h2, h3, h4, h5, h6, h7⟩ hone
    exact ⟨rfl, hfacts.1, rfl, rfl, ⟨_, hfacts.2, rfl⟩⟩

lemma submitSeq_run {imageId : String} {payload : Payload} {now : Nat} {u : User} :
    ∀ (labels : List String) (lbl : String) (db : DB), Invariant db →
    u ∈ db.users → u.sub = payload.sub →
    (∃ img ∈ db.images, img.id = imageId) →
    ∃ db', submitSeq imageId (labels ++ [lbl]) payload now db = .ok db' ∧
      ∃ t, pairSubs db' imageId u.id = [t] ∧ t.label = lbl := by
  intro labels
  induction labels with
  | nil =>
    intro lbl db hInv hu hs himg
    obtain ⟨h1, hInv', husers, himgs, t, hpair, hlbl⟩ :=
      submit_label_run { image_id := imageId, label := lbl } payload now
        hInv hu hs himg
    have heq : submit_label { image_id := imageId, label := lbl } payload now db =
        (.ok { ok := true, image_id := imageId, label := lbl },
         (submit_label { image_id := imageId, label := lbl } payload now db).2) := by
      rw [← h1]
    refine ⟨(submit_label { image_id := imageId, label := lbl } payload now db).2, ?_, t, hpair, hlbl⟩
    rw [List.nil_append, submitSeq, heq]
    rfl
  | cons l rest ih =>
    intro lbl db hInv hu hs himg
    obtain ⟨h1, hInv', husers, himgs, t, hpair, hlbl⟩ :=
      submit_label_run { image_id := imageId, label := l } payload now
        hInv hu hs himg
    have heq : submit_label { image_id := imageId, label := l } payload now db =
        (.ok { ok := true, image_id := imageId, label := l },
         (submit_label { image_id := imageId, label := l } payload now db).2) := by
      rw [← h1]
    have hu2 : u ∈ (submit_label { image_id := imageId, label := l } payload now db).2.users := by
      rw [husers]; exact hu
    have himg2 : ∃ img ∈ (submit_label { image_id := imageId, label := l } payload now db).2.images,
        img.id = imageId := by
      rw [himgs]; exact himg
    obtain ⟨db', hrun, hfinal⟩ := ih lbl _ hInv' hu2 hs himg2
    refine ⟨db', ?_, hfinal⟩
    rw [List.cons_append, submitSeq, heq]
    exact hrun

lemma mem_unlabeledImages {db : DB} {uid : Nat} {x : TestImage} :
    x ∈ unlabeledImages db uid ↔ x ∈ db.images ∧ hasLabeled db uid x.id = false := by
  simp [unlabeledImages, List.mem_filter]

/-! ## Claim theorems -/

/-- Claim C10: every request to GET /api/test inserts one `DbInitTest` row
with `testing_id = "img_001"` and answers `Inserted sample`, touching no other
table; the handler takes no authentication data at all. -/
theorem add_sample_spec (db : DB) :
    (add_sample db).1 = "Inserted sample" ∧
    (add_sample db).2.dbInitTests = db.dbInitTests ++
      [{ id := nextDbInitId db.dbInitTests, testing_id := "img_001" }] ∧
    (add_sample db).2.users = db.users ∧
    (add_sample db).2.images = db.images ∧
    (add_sample db).2.submissions = db.submissions :=
  ⟨rfl, rfl, rfl, rfl, rfl⟩

/-- Claim C4: a session token for subject `s` issued at `T` embeds expiry
`T` plus the configured lifetime (the configured default being 240 minutes);
verification before the expiry succeeds with a payload whose `sub` is `s`,
and verification after the expiry fails with the 401 "Token expired" outcome. -/
theorem jwt_lifecycle (s key : String) (m T : Nat) :
    JWT_EXPIRE_MINUTES_default = 240 ∧
    (create_jwt s T key m).exp = T + m * 60 ∧
    (∀ t, t < (create_jwt s T key m).exp →
      verify_jwt (create_jwt s T key m) key t = .ok { sub := s, exp := T + m * 60 }) ∧
    (∀ t, (create_jwt s T key m).exp < t →
      verify_jwt (create_jwt s T key m) key t =
        .error (.unauthorized "Token expired")) ∧
    (Err.unauthorized "Token expired").statusCode = 401 := by
  refine ⟨rfl, rfl, ?_, ?_, rfl⟩
  · intro t ht
    simp only [create_jwt] at ht
    simp only [verify_jwt, create_jwt, ne_eq, not_true_eq_false, if_false]
    rw [if_neg (Nat.lt_asymm ht)]
  · intro t ht
    simp only [create_jwt] at ht
    simp only [verify_jwt, create_jwt, ne_eq, not_true_eq_false, if_false]
    rw [if_pos ht]

theorem jwt_lifecycle_witness :
    verify_jwt (create_jwt "sub-123" 0 "k" 240) "k" 14399 =
      .ok { sub := "sub-123", exp := 14400 } ∧
    verify_jwt (create_jwt "sub-123" 0 "k" 240) "k" 14401 =
      .error (.unauthorized "Token expired") :=
  ⟨(jwt_lifecycle "sub-123" "k" 240 0).2.2.1 14399 (by decide),
   (jwt_lifecycle "sub-123" "k" 240 0).2.2.2.1 14401 (by decide)⟩

/-- Claim C7: a protected request whose Authorization header has a scheme
other than bearer or an empty/missing token part is answered 401 "Invalid
auth header format": the same outcome for every token decoder, signing key
and database, with the database returned untouched — so neither signature
validation nor any persistence lookup takes part in the decision. -/
theorem auth_header_early_reject (authorization : String)
    (decodeToken : String → Option Jwt) (key : String) (now : Nat) (db : DB)
    (body : LabelIn)
    (hbad : (partitionSpace authorization).1.toLower ≠ "bearer" ∨
      (partitionSpace authorization).2 = "") :
    me_handler authorization decodeToken key now db =
      (.error (.unauthorized "Invalid auth header format"), db) ∧
    next_image_handler authorization decodeToken key now db =
      (.error (.unauthorized "Invalid auth header format"), db) ∧
    submit_label_handler body authorization decodeToken key now db =
      (.error (.unauthorized "Invalid auth header format"), db) ∧
    (Err.unauthorized "Invalid auth header format").statusCode = 401 := by
  have hgp : get_current_user_payload decodeToken key now authorization =
      .error (.unauthorized "Invalid auth header format") := by
    rw [get_current_user_payload, if_pos hbad]
  exact ⟨by rw [me_handler, hgp], by rw [next_image_handler, hgp],
    by rw [submit_label_handler, hgp], rfl⟩

theorem auth_header_early_reject_witness :
    me_handler "Bearer" (fun _ => none) "k" 0 sampleDB =
      (.error (.unauthorized "Invalid auth header format"), sampleDB) :=
  (auth_header_early_reject "Bearer" (fun _ => none) "k" 0 sampleDB
    { image_id := "i", label := "l" } (Or.inr rfl)).1

/-- Claim C8: seeding is a no-op when an image row already exists; a fetch or
parse failure is swallowed, leaving the database unchanged; on an empty image
table it inserts exactly the manifest entries with both an id and a url
(entries whose id or url is missing — absent or the empty string, Python's
falsiness — are skipped), in one commit. -/
theorem seed_manifest_spec (fetched : Except Unit (List ManifestItem))
    (now : Nat) (db : DB) :
    (db.images ≠ [] → seed_from_manifest_if_needed fetched now db = db) ∧
    (seed_from_manifest_if_needed (.error ()) now db = db) ∧
    (db.images = [] → ∀ items, seed_from_manifest_if_needed (.ok items) now db =
      { db with images := items.filterMap (entryImage now) }) := by
  refine ⟨?_, ?_, ?_⟩
  · intro hne
    have h : db.images.isEmpty = false := by
      cases him : db.images with
      | nil => exact absurd him hne
      | cons a t => rfl
    simp [seed_from_manifest_if_needed, h]
  · rw [seed_from_manifest_if_needed]
    split
    · rfl
    · rfl
  · intro hemp items
    have h : db.images.isEmpty = true := by rw [hemp]; rfl
    rw [seed_from_manifest_if_needed, if_pos h]
    show { db with images := seedInsert now items db.images } = _
    rw [hemp, seedInsert_eq, List.nil_append]

theorem seed_manifest_spec_witness :
    seed_from_manifest_if_needed (.ok sampleManifest) 0 emptyDB =
      { emptyDB with images := sampleManifest.filterMap (entryImage 0) } :=
  (seed_manifest_spec (.ok sampleManifest) 0 emptyDB).2.2 rfl sampleManifest

/-- Claim C1: for every authenticated user and every database state,
get-next-image succeeds (it never raises), leaves the database untouched,
returns the all-null sentinel when the user has labeled every image, and
otherwise returns an image the user has not labeled whose id is least
(string/lexicographic order) among all such images — so it never returns an
image for which the user already has a submission. -/
theorem get_next_image_spec (payload : Payload) (db : DB) (u : User)
    (hInv : Invariant db) (hu : u ∈ db.users) (hs : u.sub = payload.sub) :
    (get_next_image payload db).2 = db ∧
    ((∀ img ∈ db.images, hasLabeled db u.id img.id = true) →
      (get_next_image payload db).1 = .ok nullNextImage) ∧
    (∀ img, minByImageId (unlabeledImages db u.id) = some img →
      (get_next_image payload db).1 = .ok (imageOut img) ∧ img ∈ db.images ∧
      hasLabeled db u.id img.id = false ∧
      ∀ j ∈ db.images, hasLabeled db u.id j.id = false → img.id ≤ j.id) ∧
    (∃ res, (get_next_image payload db).1 = .ok res) := by
  have hru : require_user db payload = .ok u :=
    require_user_ok hInv.2.2.2.1 hu hs
  cases hmin : minByImageId (unlabeledImages db u.id) with
  | none =>
    have heq := get_next_image_eq_none hru hmin
    refine ⟨by rw [heq], fun _ => by rw [heq], ?_,
      ⟨nullNextImage, by rw [heq]⟩⟩
    intro img hsome
    cases hsome
  | some img0 =>
    have heq := get_next_image_eq_some hru hmin
    have hmem := mem_unlabeledImages.mp (minByImageId_mem hmin)
    refine ⟨by rw [heq], ?_, ?_, ⟨imageOut img0, by rw [heq]⟩⟩
    · intro hall
      have hlab := hall img0 hmem.1
      rw [hmem.2] at hlab
      cases hlab
    · intro img hsome
      have himg : img0 = img := Option.some.inj hsome
      subst himg
      refine ⟨by rw [heq], hmem.1, hmem.2, ?_⟩
      intro j hj hjf
      exact minByImageId_le hmin j (mem_unlabeledImages.mpr ⟨hj, hjf⟩)

theorem get_next_image_spec_witness :
    (get_next_image { sub := "sub-123", exp := 0 } labeledDB).1 =
      .ok nullNextImage ∧
    (get_next_image { sub := "sub-123", exp := 0 } sampleDB).1 =
      .ok (imageOut sampleImage) ∧
    hasLabeled sampleDB sampleUser.id sampleImage.id = false ∧
    (get_next_image { sub := "sub-123", exp := 0 } labeledDB).2 = labeledDB :=
  ⟨(get_next_image_spec { sub := "sub-123", exp := 0 } labeledDB sampleUser
      (by decide) (by decide) rfl).2.1 (by decide),
   ((get_next_image_spec { sub := "sub-123", exp := 0 } sampleDB sampleUser
      (by decide) (by decide) rfl).2.2.1 sampleImage rfl).1,
   ((get_next_image_spec { sub := "sub-123", exp := 0 } sampleDB sampleUser
      (by decide) (by decide) rfl).2.2.1 sampleImage rfl).2.2.1,
   (get_next_image_spec { sub := "sub-123", exp := 0 } labeledDB sampleUser
      (by decide) (by decide) rfl).1⟩

/-- Claim C6: for an authenticated caller, submit-label answers the 404
"Image not found" error exactly when no image row carries the requested id,
and on any error outcome the database is returned unchanged — no submission
row is created or modified. -/
theorem submit_label_404_iff (body : LabelIn) (payload : Payload) (now : Nat)
    (db : DB) (u : User) (hInv : Invariant db) (hu : u ∈ db.users)
    (hs : u.sub = payload.sub) :
    (((submit_label body payload now db).1 =
        .error (.notFound "Image not found")) ↔
      ∀ img ∈ db.images, img.id ≠ body.image_id) ∧
    (∀ e, (submit_label body payload now db).1 = .error e →
      (submit_label body payload now db).2 = db) ∧
    (Err.notFound "Image not found").statusCode = 404 := by
  obtain ⟨h1, h2, h3, h4, h5, h6, h7⟩ := hInv
  have hru : require_user db payload = .ok u := require_user_ok h4 hu hs
  rcases findImageById_cases db body.image_id h7
      with hempty | ⟨img, hfind⟩
  · rw [submit_label_eq_404 hru hempty]
    exact ⟨⟨fun _ => findImageById_empty hempty, fun _ => rfl⟩,
      fun e _ => rfl, rfl⟩
  · have himg := findImageById_mem (hfind ▸ List.mem_singleton.mpr rfl)
    rcases pairSubs_cases db body.image_id u.id h1
        with hemp | ⟨s0, hone⟩
    · rw [submit_label_eq_insert hru hfind hemp]
      refine ⟨⟨fun hco => ?_, fun hall => absurd himg.2 (hall img himg.1)⟩,
        fun e he => ?_, rfl⟩
      · cases hco
      · cases he
    · rw [submit_label_eq_update hru hfind hone]
      refine ⟨⟨fun hco => ?_, fun hall => absurd himg.2 (hall img himg.1)⟩,
        fun e he => ?_, rfl⟩
      · cases hco
      · cases he

theorem submit_label_404_iff_witness :
    (submit_label { image_id := "NOPE.jpeg", label := "cat" }
      { sub := "sub-123", exp := 0 } 0 sampleDB).1 =
      .error (.notFound "Image not found") :=
  (submit_label_404_iff { image_id := "NOPE.jpeg", label := "cat" }
    { sub := "sub-123", exp := 0 } 0 sampleDB sampleUser (by decide)
    (by decide) rfl).1.mpr (by decide)

/-- Claim C9: when the login exchange finds an existing user for the verified
subject, the stored row is replaced in place by `updateUserFields`: each of
the four profile fields becomes the incoming claim when that claim is
non-null and stays as stored when the claim is null (a null claim never
overwrites), while `id`, `sub` and `created_at` are left unchanged. -/
theorem auth_google_update_frame (cred : String) (info : TokenInfo)
    (key : String) (m now : Nat) (db : DB) (u : User) (hInv : Invariant db)
    (hc : cred ≠ "") (hu : u ∈ db.users) (hs : info.sub = some u.sub)
    (hse : u.sub ≠ "") :
    (auth_google cred (.ok info) key m now db).2.users =
      db.users.map (fun x => if x.id == u.id then updateUserFields u info now
        else x) ∧
    (updateUserFields u info now).id = u.id ∧
    (updateUserFields u info now).sub = u.sub ∧
    (updateUserFields u info now).created_at = u.created_at ∧
    (updateUserFields u info now).email = applyField u.email info.email ∧
    (updateUserFields u info now).given_name =
      applyField u.given_name info.given_name ∧
    (updateUserFields u info now).family_name =
      applyField u.family_name info.family_name ∧
    (updateUserFields u info now).picture = applyField u.picture info.picture ∧
    (info.email = none → (updateUserFields u info now).email = u.email) ∧
    (info.given_name = none →
      (updateUserFields u info now).given_name = u.given_name) ∧
    (info.family_name = none →
      (updateUserFields u info now).family_name = u.family_name) ∧
    (info.picture = none → (updateUserFields u info now).picture = u.picture) := by
  have hone : findUserBySub db u.sub = [u] :=
    findUserBySub_eq_singleton hInv.2.2.2.1 hu
  rw [auth_google_eq_update hc hs hse hone]
  refine ⟨rfl, rfl, rfl, rfl, rfl, rfl, rfl, rfl, ?_, ?_, ?_, ?_⟩
  · intro hn; simp [updateUserFields, applyField, hn]
  · intro hn; simp [updateUserFields, applyField, hn]
  · intro hn; simp [updateUserFields, applyField, hn]
  · intro hn; simp [updateUserFields, applyField, hn]

theorem auth_google_update_frame_witness :
    (auth_google "c" (.ok sampleInfoExisting) "k" 240 5 sampleDB).2.users =
      sampleDB.users.map (fun x => if x.id == sampleUser.id
        then updateUserFields sampleUser sampleInfoExisting 5 else x) ∧
    (updateUserFields sampleUser sampleInfoExisting 5).sub = sampleUser.sub :=
  ⟨(auth_google_update_frame "c" sampleInfoExisting "k" 240 5 sampleDB
      sampleUser (by decide) (by decide) (by decide) rfl (by decide)).1,
   (auth_google_update_frame "c" sampleInfoExisting "k" 240 5 sampleDB
      sampleUser (by decide) (by decide) (by decide) rfl (by decide)).2.2.1⟩

/-- Claim C3: each of the four API operations — login exchange, get current
user, get next image, submit label — carries an invariant-satisfying database
to an invariant-satisfying database (at most one submission per (image, user)
pair, every submission referencing an existing user and an existing image,
`User.sub` globally unique, plus primary-key uniqueness of every table), and
never reassigns an existing user's `sub`. -/
theorem api_preserves_invariants (db : DB) (hInv : Invariant db) :
    (∀ (cred : String) (verified : Except Unit TokenInfo) (key : String)
       (m now : Nat),
      Invariant (auth_google cred verified key m now db).2 ∧
      subIdentityPreserved db (auth_google cred verified key m now db).2) ∧
    (∀ payload : Payload, Invariant (me payload db).2 ∧
      subIdentityPreserved db (me payload db).2) ∧
    (∀ payload : Payload, Invariant (get_next_image payload db).2 ∧
      subIdentityPreserved db (get_next_image payload db).2) ∧
    (∀ (body : LabelIn) (payload : Payload) (now : Nat),
      Invariant (submit_label body payload now db).2 ∧
      subIdentityPreserved db (submit_label body payload now db).2) := by
  refine ⟨fun cred verified key m now => auth_google_inv hInv, ?_, ?_, ?_⟩
  · intro payload
    rw [me_snd]
    exact ⟨hInv, subIdentityPreserved_refl db⟩
  · intro payload
    rw [get_next_image_snd]
    exact ⟨hInv, subIdentityPreserved_refl db⟩
  · intro body payload now
    have h := submit_label_inv body payload now hInv
    refine ⟨h.1, ?_⟩
    intro v hv
    refine ⟨v, ?_, rfl, rfl⟩
    rw [h.2.1]
    exact hv

theorem api_preserves_invariants_witness :
    Invariant (submit_label { image_id := "IMG_1.jpeg", label := "cat" }
      { sub := "sub-123", exp := 0 } 0 sampleDB).2 ∧
    Invariant (auth_google "c" (.ok sampleInfo) "k" 240 0 sampleDB).2 :=
  ⟨((api_preserves_invariants sampleDB (by decide)).2.2.2
      { image_id := "IMG_1.jpeg", label := "cat" }
      { sub := "sub-123", exp := 0 } 0).1,
   ((api_preserves_invariants sampleDB (by decide)).1
      "c" (.ok sampleInfo) "k" 240 0).1⟩

/-- Claim C5: two login exchanges verifying to the same nonempty subject both
succeed, and afterwards exactly one user row carries that subject; the second
call does not grow the user table — it finds the row the first call ensured
exists. -/
theorem auth_google_idempotent (cred1 cred2 : String) (info1 info2 : TokenInfo)
    (s key : String) (m now1 now2 : Nat) (db : DB) (hInv : Invariant db)
    (hc1 : cred1 ≠ "") (hc2 : cred2 ≠ "") (hs1 : info1.sub = some s)
    (hs2 : info2.sub = some s) (hse : s ≠ "") :
    (auth_google cred1 (.ok info1) key m now1 db).1.isOk = true ∧
    (auth_google cred2 (.ok info2) key m now2
      (auth_google cred1 (.ok info1) key m now1 db).2).1.isOk = true ∧
    (findUserBySub (auth_google cred2 (.ok info2) key m now2
      (auth_google cred1 (.ok info1) key m now1 db).2).2 s).length = 1 ∧
    (auth_google cred2 (.ok info2) key m now2
      (auth_google cred1 (.ok info1) key m now1 db).2).2.users.length =
      (auth_google cred1 (.ok info1) key m now1 db).2.users.length := by
  obtain ⟨hok1, hInv1, ⟨u1, hu1⟩, _⟩ := auth_google_run hInv hc1 hs1 hse
  obtain ⟨hok2, hInv2, ⟨u2, hu2⟩, hlen⟩ := auth_google_run hInv1 hc2 hs2 hse
  refine ⟨hok1, hok2, ?_, ?_⟩
  · rw [hu2]
    rfl
  · refine hlen ?_
    rw [hu1]
    simp

theorem auth_google_idempotent_witness :
    (findUserBySub (auth_google "c" (.ok sampleInfo) "k" 240 7
      (auth_google "c" (.ok sampleInfo) "k" 240 3 sampleDB).2).2
      "sub-999").length = 1 ∧
    (auth_google "c" (.ok sampleInfo) "k" 240 7
      (auth_google "c" (.ok sampleInfo) "k" 240 3 sampleDB).2).2.users.length =
      (auth_google "c" (.ok sampleInfo) "k" 240 3 sampleDB).2.users.length :=
  ⟨(auth_google_idempotent "c" "c" sampleInfo sampleInfo "sub-999" "k" 240 3 7
      sampleDB (by decide) (by decide) (by decide) rfl rfl (by decide)).2.2.1,
   (auth_google_idempotent "c" "c" sampleInfo sampleInfo "sub-999" "k" 240 3 7
      sampleDB (by decide) (by decide) (by decide) rfl rfl (by decide)).2.2.2⟩

/-- Claim C2: for an authenticated caller and an existing image, any nonempty
sequence of submit-label calls for the pair succeeds, and afterwards the pair
has exactly one submission row whose label is the last value submitted: the
list of labels stored for the pair is exactly `[final label]`. -/
theorem submit_label_upsert_seq (imageId : String) (labels : List String)
    (lbl : String) (payload : Payload) (now : Nat) (db : DB) (u : User)
    (hInv : Invariant db) (hu : u ∈ db.users) (hs : u.sub = payload.sub)
    (himg : ∃ img ∈ db.images, img.id = imageId) :
    (submitSeq imageId (labels ++ [lbl]) payload now db).isOk = true ∧
    ∀ db', submitSeq imageId (labels ++ [lbl]) payload now db = .ok db' →
      (pairSubs db' imageId u.id).map (fun t => t.label) = [lbl] := by
  obtain ⟨db', hok, t, hp, hl⟩ := submitSeq_run labels lbl db hInv hu hs himg
  refine ⟨by rw [hok]; rfl, ?_⟩
  intro db'' heq
  have hdd : db' = db'' := by
    rw [hok] at heq
    exact Except.ok.inj heq
  subst hdd
  rw [hp]
  simp [hl]

theorem submit_label_upsert_seq_witness :
    (pairSubs ((submitSeq "IMG_1.jpeg" (["cat"] ++ ["dog"])
      { sub := "sub-123", exp := 0 } 3 sampleDB).toOption.getD sampleDB)
      "IMG_1.jpeg" sampleUser.id).map (fun t => t.label) = ["dog"] :=
  (submit_label_upsert_seq "IMG_1.jpeg" ["cat"] "dog"
    { sub := "sub-123", exp := 0 } 3 sampleDB sampleUser (by decide) (by decide)
    rfl (by decide)).2
    ((submitSeq "IMG_1.jpeg" (["cat"] ++ ["dog"])
      { sub := "sub-123", exp := 0 } 3 sampleDB).toOption.getD sampleDB) rfl
